import Mathlib

/-!
Verification of the `appengine-pipelines` execution-engine sources against
their natural-language specification.  Datastore records, the task-queue
compatibility layer, and the canonical JSON payload codec are shallowly
embedded as executable Lean definitions translated from the Python sources
under `src/python/src/pipeline/`; the handful of classes that live in the
repository's main `pipeline.py` module (absent from the provided sources)
are modelled from the specification, and each such definition says so in
its doc comment.
-/

namespace PipelineModel

/-! ## Datastore keys and `_BarrierIndex.to_barrier_key` (models.py)

An ndb key is embedded by its flattened path: the list of path components
returned by `key.flat()`, alternating kind names and identifiers. -/

/-- The value of `_BarrierRecord._get_kind()` in models.py. -/
def _BarrierRecord.get_kind : String := "_AE_Pipeline_Barrier"

/-- The value of `_PipelineRecord._get_kind()` in models.py. -/
def _PipelineRecord.get_kind : String := "_AE_Pipeline_Record"

/-- The value of `_SlotRecord._get_kind()` in models.py. -/
def _SlotRecord.get_kind : String := "_AE_Pipeline_Slot"

/-- The value of `_BarrierIndex._get_kind()` in models.py. -/
def _BarrierIndex.get_kind : String := "_AE_Barrier_Index"

/-- `_BarrierIndex.to_barrier_key` from models.py, acting on the flattened
key path.  Python takes `barrier_index_path[-4:]`, unpacks it into
`(pipeline_kind, dependent_pipeline_id, unused_kind, purpose)` — which
raises if fewer than four components exist, embedded here as `none` — and
rebuilds the path `(pipeline_kind, dependent_pipeline_id,
_BarrierRecord._get_kind(), purpose)`. -/
def _BarrierIndex.to_barrier_key (barrier_index_path : List String) :
    Option (List String) :=
  match barrier_index_path.drop (barrier_index_path.length - 4) with
  | [pipeline_kind, dependent_pipeline_id, _unused_kind, purpose] =>
      some [pipeline_kind, dependent_pipeline_id,
            _BarrierRecord.get_kind, purpose]
  | _ => none

/-- Claim C1: for every `_BarrierIndex` key whose flattened path ends in the
four components (pipeline kind, dependent pipeline id, barrier-index kind,
purpose) — any key-path head allowed, covering both the root-slot and the
child-slot key shapes — `to_barrier_key` returns the key
(pipeline kind, dependent pipeline id, `"_AE_Pipeline_Barrier"`, purpose). -/
theorem to_barrier_key_spec (head : List String)
    (pipeline_kind dependent_pipeline_id index_kind purpose : String) :
    _BarrierIndex.to_barrier_key
        (head ++ [pipeline_kind, dependent_pipeline_id, index_kind, purpose])
      = some [pipeline_kind, dependent_pipeline_id,
              "_AE_Pipeline_Barrier", purpose] := by
  unfold _BarrierIndex.to_barrier_key
  have hlen : (head ++ [pipeline_kind, dependent_pipeline_id, index_kind,
      purpose]).length - 4 = head.length := by
    simp [List.length_append]
  rw [hlen]
  rw [List.drop_left]
  rfl

/-! ## Decoded payload values and the canonical JSON codec

`util.JsonEncoder` / `util.JsonDecoder` live in the repository's `util.py`
module, which is not among the provided sources (only `test/util_test.py`
is).  The codec is therefore modelled from the specification: "A single
canonical JSON-like representation is used for all persisted payloads.
Datetimes are encoded with a distinguishing type tag so the decoder
restores the original type."  Values are embedded as the mutual family
below: JSON primitives, lists, string-keyed dictionaries, plus `datetime`
(timestamps embedded as integers). -/

mutual
inductive PValue : Type where
  | null : PValue
  | boolean : Bool → PValue
  | num : Int → PValue
  | str : String → PValue
  | list : PList → PValue
  | dict : PObj → PValue
  | datetime : Int → PValue
inductive PList : Type where
  | nil : PList
  | cons : PValue → PList → PList
inductive PObj : Type where
  | nil : PObj
  | cons : String → PValue → PObj → PObj
end

deriving instance DecidableEq for PValue
deriving instance DecidableEq for PList
deriving instance DecidableEq for PObj

/-- Modelled from the spec: the reserved type-tag key the encoder places in
the tagged object it emits for a datetime (util.py's `JsonEncoder.TYPE_ID`
is not among the provided sources). -/
def TYPE_ID : String := "__pipeline_json_type"

/-- First-match association lookup on an embedded Python dictionary
(Python dictionaries have unique keys, so first match is the match). -/
def PObj.lookup : String → PObj → Option PValue
  | _, .nil => none
  | key, .cons k v tl => if k = key then some v else PObj.lookup key tl

/-- Python dictionary assignment `d[key] = v`: replace the binding if the
key is present, otherwise append it. -/
def PObj.setKey (key : String) (v : PValue) : PObj → PObj
  | .nil => .cons key v .nil
  | .cons k w tl =>
      if k = key then .cons k v tl else .cons k w (tl.setKey key v)

mutual
/-- Modelled from the spec: the encoding half of the canonical codec
(`json.dumps` with `util.JsonEncoder`).  Primitives, lists and
dictionaries pass through structurally; a datetime is replaced by an
object tagged with `TYPE_ID` carrying its timestamp. -/
def jsonEncode : PValue → PValue
  | .null => .null
  | .boolean b => .boolean b
  | .num n => .num n
  | .str s => .str s
  | .list xs => .list (jsonEncodeList xs)
  | .dict kvs => .dict (jsonEncodeObj kvs)
  | .datetime t =>
      .dict (.cons TYPE_ID (.str "datetime") (.cons "isostr" (.num t) .nil))
def jsonEncodeList : PList → PList
  | .nil => .nil
  | .cons x xs => .cons (jsonEncode x) (jsonEncodeList xs)
def jsonEncodeObj : PObj → PObj
  | .nil => .nil
  | .cons k v tl => .cons k (jsonEncode v) (jsonEncodeObj tl)
end

/-- Modelled from the spec: the decoder's object hook.  A decoded
dictionary carrying the `TYPE_ID` tag with value `"datetime"` is replaced
by the datetime it encodes; any other dictionary is returned unchanged. -/
def _dict_to_obj (d : PObj) : PValue :=
  match d.lookup TYPE_ID with
  | some (.str "datetime") =>
      match d.lookup "isostr" with
      | some (.num t) => .datetime t
      | _ => .dict d
  | _ => .dict d

mutual
/-- Modelled from the spec: the decoding half of the canonical codec
(`json.loads` with `util.JsonDecoder`): decode members bottom-up and run
the object hook on every decoded dictionary. -/
def jsonDecode : PValue → PValue
  | .null => .null
  | .boolean b => .boolean b
  | .num n => .num n
  | .str s => .str s
  | .list xs => .list (jsonDecodeList xs)
  | .dict kvs => _dict_to_obj (jsonDecodeObj kvs)
  | .datetime t => .datetime t
def jsonDecodeList : PList → PList
  | .nil => .nil
  | .cons x xs => .cons (jsonDecode x) (jsonDecodeList xs)
def jsonDecodeObj : PObj → PObj
  | .nil => .nil
  | .cons k v tl => .cons k (jsonDecode v) (jsonDecodeObj tl)
end

mutual
/-- A value none of whose dictionaries binds the reserved tag key. -/
def PValue.noTag : PValue → Bool
  | .list xs => xs.noTagList
  | .dict kvs => kvs.noTagObj
  | _ => true
def PList.noTagList : PList → Bool
  | .nil => true
  | .cons x xs => x.noTag && xs.noTagList
def PObj.noTagObj : PObj → Bool
  | .nil => true
  | .cons k v tl => (decide (k ≠ TYPE_ID)) && v.noTag && tl.noTagObj
end

/-- A dictionary that avoids the reserved tag key has no `TYPE_ID` binding. -/
theorem PObj.lookup_type_id_of_noTag :
    ∀ d : PObj, d.noTagObj = true → d.lookup TYPE_ID = none
  | .nil, _ => rfl
  | .cons k v tl, h => by
      have h' := h
      simp only [PObj.noTagObj, Bool.and_eq_true, decide_eq_true_eq] at h'
      simp [PObj.lookup, h'.1.1, PObj.lookup_type_id_of_noTag tl h'.2]

mutual
/-- Round trip of the canonical codec on values that avoid the tag key. -/
theorem jsonDecode_jsonEncode :
    ∀ v : PValue, v.noTag = true → jsonDecode (jsonEncode v) = v
  | .null, _ => rfl
  | .boolean _, _ => rfl
  | .num _, _ => rfl
  | .str _, _ => rfl
  | .list xs, h => by
      have hx : xs.noTagList = true := by
        simpa [PValue.noTag] using h
      simp [jsonEncode, jsonDecode, jsonDecodeList_jsonEncodeList xs hx]
  | .dict kvs, h => by
      have hk : kvs.noTagObj = true := by
        simpa [PValue.noTag] using h
      simp [jsonEncode, jsonDecode, jsonDecodeObj_jsonEncodeObj kvs hk,
        _dict_to_obj, PObj.lookup_type_id_of_noTag kvs hk]
  | .datetime t, _ => by
      simp [jsonEncode, jsonDecode, jsonDecodeObj, _dict_to_obj,
        PObj.lookup, TYPE_ID]

theorem jsonDecodeList_jsonEncodeList :
    ∀ xs : PList, xs.noTagList = true →
      jsonDecodeList (jsonEncodeList xs) = xs
  | .nil, _ => rfl
  | .cons x xs, h => by
      have h' := h
      simp only [PList.noTagList, Bool.and_eq_true] at h'
      simp [jsonEncodeList, jsonDecodeList,
        jsonDecode_jsonEncode x h'.1, jsonDecodeList_jsonEncodeList xs h'.2]

theorem jsonDecodeObj_jsonEncodeObj :
    ∀ d : PObj, d.noTagObj = true → jsonDecodeObj (jsonEncodeObj d) = d
  | .nil, _ => rfl
  | .cons k v tl, h => by
      have h' := h
      simp only [PObj.noTagObj, Bool.and_eq_true, decide_eq_true_eq] at h'
      simp [jsonEncodeObj, jsonDecodeObj,
        jsonDecode_jsonEncode v h'.1.2, jsonDecodeObj_jsonEncodeObj tl h'.2]
end

/-- The value serialized and deserialized by `JsonSerializationTest.testE2e`:
`{"a": 1, "b": [{"c": "d"}], "e": now}`, with the datetime timestamp
embedded as an integer. -/
def testE2eObj : PValue :=
  .dict (.cons "a" (.num 1)
    (.cons "b" (.list (.cons (.dict (.cons "c" (.str "d") .nil)) .nil))
      (.cons "e" (.datetime 1700000000) .nil)))

/-- Claim C6, as stated, is false: the codec's type tag is in-band, so a
plain string-keyed dictionary that itself binds the reserved tag key (a
value composed only of JSON primitives and dictionaries) decodes to a
datetime rather than to itself. -/
theorem json_roundtrip_counterexample :
    jsonDecode (jsonEncode (PValue.dict (.cons TYPE_ID (.str "datetime")
        (.cons "isostr" (.num 0) .nil))))
      = PValue.datetime 0
    ∧ PValue.datetime 0
        ≠ PValue.dict (.cons TYPE_ID (.str "datetime")
            (.cons "isostr" (.num 0) .nil)) :=
  ⟨by decide, by decide⟩

/-- Claim C6 (amended): for every value composed of JSON primitives, lists,
string-keyed dictionaries, and datetimes, none of whose dictionaries binds
the encoder's reserved type-tag key, decoding the canonical JSON encoding
yields the original value; in particular datetime leaves round-trip to
equal datetimes rather than strings. -/
theorem json_roundtrip (v : PValue) (h : v.noTag = true) :
    jsonDecode (jsonEncode v) = v :=
  jsonDecode_jsonEncode v h

/-- Claim C6's round trip evaluated on the concrete value of the unit test
`JsonSerializationTest.testE2e`. -/
theorem json_roundtrip_witness :
    testE2eObj.noTag = true
    ∧ jsonDecode (jsonEncode testE2eObj) = testE2eObj :=
  ⟨by decide, json_roundtrip testE2eObj (by decide)⟩

/-! ## `_PipelineRecord.params` kwargs adjustment (models.py)

The `params` property decodes the stored payload and, when the decoded
value is a dictionary with a truthy `kwargs` entry, rebuilds that entry
with every key passed through Python's `str`. -/

/-- Python truthiness of a decoded payload value, as tested by
`if kwargs:` in `_PipelineRecord.params`. -/
def pyTruthy : PValue → Bool
  | .null => false
  | .boolean b => b
  | .num n => decide (n ≠ 0)
  | .str s => decide (s ≠ "")
  | .list .nil => false
  | .list (.cons _ _) => true
  | .dict .nil => false
  | .dict (.cons _ _ _) => true
  | .datetime _ => true

/-- Python `str(arg_key)` on a decoded dictionary key: `json.loads` always
produces `str` keys, and `str` on a `str` is the identity. -/
def py_str (s : String) : String := s

/-- The `adjusted_kwargs` loop of `_PipelineRecord.params`: rebuild the
kwargs dictionary with each key coerced through `str`, values unchanged. -/
def PObj.adjusted_kwargs : PObj → PObj
  | .nil => .nil
  | .cons k v tl => .cons (py_str k) v tl.adjusted_kwargs

/-- The post-decode adjustment performed by `_PipelineRecord.params` on the
decoded payload: if the value is a dictionary whose `kwargs` entry is
truthy, replace that entry by its key-coerced rebuild; a truthy non-dict
`kwargs` makes Python's `kwargs.items()` raise, embedded as `none`. -/
def params_adjust_kwargs (value : PValue) : Option PValue :=
  match value with
  | .dict kvs =>
      match kvs.lookup "kwargs" with
      | some kw =>
          if pyTruthy kw then
            match kw with
            | .dict kwdict =>
                some (.dict (kvs.setKey "kwargs" (.dict kwdict.adjusted_kwargs)))
            | _ => none
          else some (.dict kvs)
      | none => some (.dict kvs)
  | v => some v

/-- Claim C5: a decoded params payload that is a dictionary with a
non-empty `kwargs` dictionary has that entry rebuilt with keys coerced by
`str` and values unchanged; payloads that are not dictionaries, or whose
`kwargs` entry is absent or empty, are returned exactly as decoded. -/
theorem params_kwargs_adjustment (v : PValue) :
    (∀ kvs kw, v = .dict kvs → kvs.lookup "kwargs" = some (.dict kw) →
        kw ≠ .nil →
        params_adjust_kwargs v
          = some (.dict (kvs.setKey "kwargs" (.dict kw.adjusted_kwargs))))
    ∧ (∀ kvs, v = .dict kvs → kvs.lookup "kwargs" = none →
        params_adjust_kwargs v = some v)
    ∧ (∀ kvs, v = .dict kvs → kvs.lookup "kwargs" = some (.dict .nil) →
        params_adjust_kwargs v = some v)
    ∧ ((∀ kvs, v ≠ PValue.dict kvs) → params_adjust_kwargs v = some v) := by
  refine ⟨?_, ?_, ?_, ?_⟩
  · rintro kvs kw rfl hlook hne
    cases kw with
    | nil => exact absurd rfl hne
    | cons k w tl => simp [params_adjust_kwargs, hlook, pyTruthy]
  · rintro kvs rfl hlook
    simp [params_adjust_kwargs, hlook]
  · rintro kvs rfl hlook
    simp [params_adjust_kwargs, hlook, pyTruthy]
  · intro hnd
    cases v with
    | dict kvs => exact absurd rfl (hnd kvs)
    | null => rfl
    | boolean b => rfl
    | num n => rfl
    | str s => rfl
    | list xs => rfl
    | datetime t => rfl

/-- Claim C5 evaluated on concrete payloads: a dictionary with kwargs
`{"x": 1}` gets its kwargs keys coerced in place, and a bare list payload
is returned as decoded. -/
theorem params_kwargs_adjustment_witness :
    params_adjust_kwargs
        (.dict (.cons "args" (.list .nil)
          (.cons "kwargs" (.dict (.cons "x" (.num 1) .nil)) .nil)))
      = some (.dict (.cons "args" (.list .nil)
          (.cons "kwargs"
            (.dict (.cons (py_str "x") (.num 1) .nil)) .nil)))
    ∧ params_adjust_kwargs (.list .nil) = some (.list .nil) := by
  constructor
  · exact (params_kwargs_adjustment _).1 _ (.cons "x" (.num 1) .nil) rfl
      (by decide) (by decide)
  · exact (params_kwargs_adjustment _).2.2.2 (by intro kvs h; cases h)

/-! ## Datastore record types and their status properties (models.py)

Each record's `status` is declared in models.py as
`ndb.StringProperty(choices=..., default=...)`.  The `google.cloud.ndb`
property machinery (an external library) rejects assignment of a value
outside `choices` with `BadValueError`; that validation is embedded as
`ndbValidateChoices`. -/

def _PipelineRecord.WAITING : String := "waiting"
def _PipelineRecord.RUN : String := "run"
def _PipelineRecord.DONE : String := "done"
def _PipelineRecord.ABORTED : String := "aborted"

def _SlotRecord.FILLED : String := "filled"
def _SlotRecord.WAITING : String := "waiting"

def _BarrierRecord.FIRED : String := "fired"
def _BarrierRecord.WAITING : String := "waiting"

/-- The `choices` tuple of `_PipelineRecord.status`. -/
def _PipelineRecord.status_choices : List String :=
  [_PipelineRecord.WAITING, _PipelineRecord.RUN,
   _PipelineRecord.DONE, _PipelineRecord.ABORTED]

/-- The `choices` tuple of `_SlotRecord.status`. -/
def _SlotRecord.status_choices : List String :=
  [_SlotRecord.FILLED, _SlotRecord.WAITING]

/-- The `choices` tuple of `_BarrierRecord.status`. -/
def _BarrierRecord.status_choices : List String :=
  [_BarrierRecord.FIRED, _BarrierRecord.WAITING]

/-- google.cloud.ndb `StringProperty(choices=...)` assignment validation:
a value outside the declared choices raises `BadValueError`, embedded as
`none`. -/
def ndbValidateChoices (choices : List String) (v : String) : Option String :=
  if v ∈ choices then some v else none

/-- The `_PipelineRecord` model of models.py (fields relevant to the
claims; property defaults as declared). -/
structure _PipelineRecord where
  params_text : Option String := none
  params_gcs : Option String := none
  status : String := _PipelineRecord.WAITING
  current_attempt : Int := 0
  max_attempts : Int := 1
  is_root_pipeline : Bool := false
  abort_requested : Bool := false
deriving DecidableEq

/-- The `_SlotRecord` model of models.py. -/
structure _SlotRecord where
  filler : Option String := none
  value_text : Option String := none
  value_gcs : Option String := none
  status : String := _SlotRecord.WAITING
  fill_time : Option Int := none
deriving DecidableEq

/-- The `_BarrierRecord` model of models.py. -/
structure _BarrierRecord where
  target : Option String := none
  blocking_slots : List String := []
  trigger_time : Option Int := none
  status : String := _BarrierRecord.WAITING
deriving DecidableEq

/-- Assignment to `_PipelineRecord.status` through the ndb property. -/
def _PipelineRecord.set_status (r : _PipelineRecord) (v : String) :
    Option _PipelineRecord :=
  (ndbValidateChoices _PipelineRecord.status_choices v).map
    fun s => { r with status := s }

/-- Assignment to `_SlotRecord.status` through the ndb property. -/
def _SlotRecord.set_status (r : _SlotRecord) (v : String) :
    Option _SlotRecord :=
  (ndbValidateChoices _SlotRecord.status_choices v).map
    fun s => { r with status := s }

/-- Assignment to `_BarrierRecord.status` through the ndb property. -/
def _BarrierRecord.set_status (r : _BarrierRecord) (v : String) :
    Option _BarrierRecord :=
  (ndbValidateChoices _BarrierRecord.status_choices v).map
    fun s => { r with status := s }

/-- Claim C3: each record kind's status set and default are as declared —
pipeline statuses in {waiting, run, done, aborted} defaulting to waiting,
slot statuses in {filled, waiting} defaulting to waiting, barrier statuses
in {fired, waiting} defaulting to waiting — and assignment of any value
outside the respective set is rejected while accepted assignments keep the
status inside the set, so the invariant is preserved. -/
theorem record_status_invariant :
    (({} : _PipelineRecord).status = "waiting"
      ∧ ({} : _PipelineRecord).status ∈ _PipelineRecord.status_choices
      ∧ _PipelineRecord.status_choices = ["waiting", "run", "done", "aborted"])
    ∧ (({} : _SlotRecord).status = "waiting"
      ∧ ({} : _SlotRecord).status ∈ _SlotRecord.status_choices
      ∧ _SlotRecord.status_choices = ["filled", "waiting"])
    ∧ (({} : _BarrierRecord).status = "waiting"
      ∧ ({} : _BarrierRecord).status ∈ _BarrierRecord.status_choices
      ∧ _BarrierRecord.status_choices = ["fired", "waiting"])
    ∧ (∀ r v, v ∉ _PipelineRecord.status_choices →
        _PipelineRecord.set_status r v = none)
    ∧ (∀ r v r', _PipelineRecord.set_status r v = some r' →
        r'.status ∈ _PipelineRecord.status_choices)
    ∧ (∀ r v, v ∉ _SlotRecord.status_choices →
        _SlotRecord.set_status r v = none)
    ∧ (∀ r v r', _SlotRecord.set_status r v = some r' →
        r'.status ∈ _SlotRecord.status_choices)
    ∧ (∀ r v, v ∉ _BarrierRecord.status_choices →
        _BarrierRecord.set_status r v = none)
    ∧ (∀ r v r', _BarrierRecord.set_status r v = some r' →
        r'.status ∈ _BarrierRecord.status_choices) := by
  refine ⟨⟨rfl, by decide, rfl⟩, ⟨rfl, by decide, rfl⟩, ⟨rfl, by decide, rfl⟩,
    ?_, ?_, ?_, ?_, ?_, ?_⟩ <;>
  · first
    | (intro r v hv
       simp [_PipelineRecord.set_status, _SlotRecord.set_status,
         _BarrierRecord.set_status, ndbValidateChoices, hv])
    | (intro r v r' h
       simp only [_PipelineRecord.set_status, _SlotRecord.set_status,
         _BarrierRecord.set_status, ndbValidateChoices] at h
       split at h
       · cases h with
         | refl => simpa using by assumption
       · simp at h)

/-- Claim C3 evaluated concretely: the rejected assignment clauses of the
status invariant at the status value "bogus" on default records. -/
theorem record_status_invariant_witness :
    _PipelineRecord.set_status {} "bogus" = none
    ∧ _SlotRecord.set_status {} "bogus" = none
    ∧ _BarrierRecord.set_status {} "bogus" = none :=
  ⟨record_status_invariant.2.2.2.1 {} "bogus" (by decide),
   record_status_invariant.2.2.2.2.2.1 {} "bogus" (by decide),
   record_status_invariant.2.2.2.2.2.2.2.1 {} "bogus" (by decide)⟩

/-! ## Payload storage: inline text vs blob handle (models.py, storage.py)

`_SlotRecord.value` and `_PipelineRecord.params` decode their payload from
the blob store via `storage.read_blob_gcs` when the blob-handle field is
non-null and from the inline text field otherwise, both through
`json.loads(..., cls=util.JsonDecoder)`.  Blob-store access and stdlib
JSON parsing are I/O and are abstracted as function parameters. -/

/-- `json.loads(s, cls=util.JsonDecoder)`: stdlib JSON parsing (abstracted
as `parse`) followed by the canonical decoder's object hook pass. -/
def json_loads (parse : String → PValue) (s : String) : PValue :=
  jsonDecode (parse s)

/-- The `_SlotRecord.value` property: read the encoded payload from the
blob store when `value_gcs` is non-null, else from `value_text` (a null
`value_text` would make `json.loads(None)` raise, embedded as `none`),
then decode canonically. -/
def _SlotRecord.value (read_blob_gcs : String → String)
    (parse : String → PValue) (r : _SlotRecord) : Option PValue :=
  match r.value_gcs with
  | some handle => some (json_loads parse (read_blob_gcs handle))
  | none => r.value_text.map (json_loads parse)

/-- The `_PipelineRecord.params` property: the same inline/blob dispatch
as `_SlotRecord.value`, followed by the kwargs key adjustment. -/
def _PipelineRecord.params (read_blob_gcs : String → String)
    (parse : String → PValue) (r : _PipelineRecord) : Option PValue :=
  let encoded := match r.params_gcs with
    | some handle => some (read_blob_gcs handle)
    | none => r.params_text
  encoded.bind fun e => params_adjust_kwargs (json_loads parse e)

/-- Modelled from the spec: the writer side lives in the repository's main
`pipeline.py` module, which is not among the provided sources.  Payloads
exceeding the inline-size threshold are offloaded: "the record stores a
`blob_handle` string returned by the blob store, and the inline-text field
is null. Exactly one of `inline_text` / `blob_handle` is set."  Returns the
(inline-text, blob-handle) field pair. -/
def write_value_fields (threshold : Nat) (write_json_gcs : String → String)
    (encoded : String) : Option String × Option String :=
  if encoded.length > threshold then (none, some (write_json_gcs encoded))
  else (some encoded, none)

/-- Modelled from the spec: persisting a filled slot record with the field
pair produced by `write_value_fields`. -/
def fill_slot_record (threshold : Nat) (write_json_gcs : String → String)
    (filler : String) (encoded : String) (now : Int) : _SlotRecord :=
  let fields := write_value_fields threshold write_json_gcs encoded
  { filler := some filler
    value_text := fields.1
    value_gcs := fields.2
    status := _SlotRecord.FILLED
    fill_time := some now }

/-- Claim C4: every persisted slot record has exactly one of the
inline-text and blob-handle fields set, and the decoded value is read via
`read_blob_gcs` when the blob-handle field is non-null and from the inline
text field otherwise, in both cases through the canonical JSON decoder;
analogously for `_PipelineRecord.params`. -/
theorem slot_value_storage_dispatch :
    (∀ threshold write_json_gcs filler encoded now,
      let r := fill_slot_record threshold write_json_gcs filler encoded now
      (r.value_text.isSome ∧ r.value_gcs = none)
        ∨ (r.value_text = none ∧ r.value_gcs.isSome))
    ∧ (∀ read_blob_gcs parse (r : _SlotRecord) handle,
        r.value_gcs = some handle →
        r.value read_blob_gcs parse
          = some (jsonDecode (parse (read_blob_gcs handle))))
    ∧ (∀ read_blob_gcs parse (r : _SlotRecord) text,
        r.value_gcs = none → r.value_text = some text →
        r.value read_blob_gcs parse = some (jsonDecode (parse text)))
    ∧ (∀ read_blob_gcs parse (r : _PipelineRecord) handle,
        r.params_gcs = some handle →
        r.params read_blob_gcs parse
          = params_adjust_kwargs (jsonDecode (parse (read_blob_gcs handle))))
    ∧ (∀ read_blob_gcs parse (r : _PipelineRecord) text,
        r.params_gcs = none → r.params_text = some text →
        r.params read_blob_gcs parse
          = params_adjust_kwargs (jsonDecode (parse text))) := by
  refine ⟨?_, ?_, ?_, ?_, ?_⟩
  · intro threshold write_json_gcs filler encoded now
    by_cases h : encoded.length > threshold
    · right
      simp [fill_slot_record, write_value_fields, h]
    · left
      simp [fill_slot_record, write_value_fields, h]
  · intro read_blob_gcs parse r handle hgcs
    simp [_SlotRecord.value, hgcs, json_loads]
  · intro read_blob_gcs parse r text hgcs htext
    simp [_SlotRecord.value, hgcs, htext, json_loads]
  · intro read_blob_gcs parse r handle hgcs
    simp [_PipelineRecord.params, hgcs, json_loads]
  · intro read_blob_gcs parse r text hgcs htext
    simp [_PipelineRecord.params, hgcs, htext, json_loads]

/-- Claim C4 evaluated concretely: a record with a blob handle reads
through the blob store and a record with only inline text reads the inline
field, both through the canonical decoder. -/
theorem slot_value_storage_dispatch_witness :
    _SlotRecord.value (fun _ => "enc") (fun _ => PValue.num 3)
        { value_gcs := some "h0" } = some (PValue.num 3)
    ∧ _SlotRecord.value (fun _ => "enc") (fun _ => PValue.num 7)
        { value_text := some "inline" } = some (PValue.num 7) :=
  ⟨by
    simpa [jsonDecode] using
      (slot_value_storage_dispatch.2.1 (fun _ => "enc")
        (fun _ => PValue.num 3) { value_gcs := some "h0" } "h0" rfl),
   by
    simpa [jsonDecode] using
      (slot_value_storage_dispatch.2.2.1 (fun _ => "enc")
        (fun _ => PValue.num 7) { value_text := some "inline" }
        "inline" rfl rfl)⟩

/-! ## Task queue compatibility layer

Embeds `taskqueue_compat.py` (test mode) together with the in-memory
queue of `taskqueue_test_stub.py`.  State is per queue: the stub's list of
task dictionaries plus the set of tombstoned names.  Stub exceptions and
their message-based classification in `Queue.add` are embedded as the
error enumeration. -/

/-- The taskqueue error kinds raised by `Queue.add`. -/
inductive TaskQueueError where
  | tombstonedTask
  | taskAlreadyExists
deriving DecidableEq

/-- The compatibility `Task` (fields relevant to enqueueing; the
form-encoded body and headers are carried as the raw parameter list). -/
structure Task where
  url : Option String := none
  params : List (String × String) := []
  name : Option String := none
  method : String := "POST"
  eta : Option Int := none
deriving DecidableEq

/-- Python `task_obj.name or ''`: the empty string when the name is `None`
or empty. -/
def pyStrOr (a : Option String) (b : String) : String :=
  match a with
  | none => b
  | some s => if s = "" then b else s

/-- The dictionary representation built by `Queue._task_to_dict`. -/
structure TaskDict where
  name : String
  url : Option String
  method : String
  params : List (String × String)
  eta : Option Int
deriving DecidableEq

/-- `Queue._task_to_dict` from taskqueue_compat.py (base64/url-encoding of
the body, a stdlib bijection, is elided: `params` is carried as given). -/
def Queue._task_to_dict (task_obj : Task) : TaskDict :=
  { name := pyStrOr task_obj.name ""
    url := task_obj.url
    method := task_obj.method
    params := task_obj.params
    eta := task_obj.eta }

/-- The state of one queue of the test stub: its task list and the
tombstoned names. -/
structure QueueState where
  tasks : List TaskDict := []
  tombstones : List String := []
deriving DecidableEq

/-- `TaskQueueTestStub.add_task` acting on the named queue's state: a
truthy name that is tombstoned or already present raises (embedded as the
error, state unchanged); otherwise the task is appended. -/
def TaskQueueTestStub.add_task (st : QueueState) (task_dict : TaskDict) :
    QueueState × Option TaskQueueError :=
  let task_name := task_dict.name
  if task_name ≠ "" ∧ task_name ∈ st.tombstones then
    (st, some .tombstonedTask)
  else
    let existing_names := st.tasks.map (·.name)
    if task_name ≠ "" ∧ task_name ∈ existing_names then
      (st, some .taskAlreadyExists)
    else
      ({ st with tasks := st.tasks ++ [task_dict] }, none)

/-- `TaskQueueTestStub.delete_task`: drop every task with the given name
and tombstone the name. -/
def TaskQueueTestStub.delete_task (st : QueueState) (task_name : String) :
    QueueState :=
  { tasks := st.tasks.filter fun t => t.name ≠ task_name
    tombstones := st.tombstones ++ [task_name] }

/-- `TaskQueueTestStub.clear_queue`: tombstone every truthy task name and
empty the queue. -/
def TaskQueueTestStub.clear_queue (st : QueueState) : QueueState :=
  { tasks := []
    tombstones := st.tombstones
      ++ (st.tasks.map (·.name)).filter fun n => n ≠ "" }

/-- `Queue.add` in test mode for a single task: convert through
`_task_to_dict`, call the stub, re-raise stub exceptions classified by
their message ("already exists" / "tombstoned") as the two error kinds. -/
def Queue.add (st : QueueState) (task_obj : Task) :
    QueueState × Option TaskQueueError :=
  TaskQueueTestStub.add_task st (Queue._task_to_dict task_obj)

/-- `Task.add` from taskqueue_compat.py: a requested `transactional=True`
only logs a warning (returned here as the message list) and the task is
enqueued through `Queue.add` exactly as in the non-transactional case. -/
def Task.add (task_obj : Task) (st : QueueState) (transactional : Bool) :
    (QueueState × Option TaskQueueError) × List String :=
  let warnings :=
    if transactional then
      ["Cloud Tasks does not support transactional task enqueueing. "
        ++ "Task will be added non-transactionally. "
        ++ "Ensure handlers are idempotent."]
    else []
  (Queue.add st task_obj, warnings)

/-- The non-empty task names currently in the queue. -/
def nonemptyNames (st : QueueState) : List String :=
  (st.tasks.map (·.name)).filter fun n => n ≠ ""

/-- Queue states reachable through the stub's operations: no task's
non-empty name is tombstoned, and the non-empty names are pairwise
distinct. -/
def QueueWF (st : QueueState) : Prop :=
  (∀ n ∈ st.tasks.map (·.name), n ≠ "" → n ∉ st.tombstones)
  ∧ (nonemptyNames st).Nodup

instance (st : QueueState) : Decidable (QueueWF st) := by
  unfold QueueWF
  infer_instance

/-- Adding a task through the stub preserves queue well-formedness. -/
theorem add_task_preserves_wf (st : QueueState) (d : TaskDict)
    (h : QueueWF st) : QueueWF (TaskQueueTestStub.add_task st d).1 := by
  by_cases hc1 : d.name ≠ "" ∧ d.name ∈ st.tombstones
  · obtain ⟨hne, hmem⟩ := hc1
    simpa [TaskQueueTestStub.add_task, hne, hmem] using h
  · by_cases hc2 : d.name ≠ "" ∧ d.name ∈ st.tasks.map (·.name)
    · obtain ⟨hne, hmem⟩ := hc2
      have hnt : d.name ∉ st.tombstones := fun hm => hc1 ⟨hne, hm⟩
      simpa [TaskQueueTestStub.add_task, hne, hmem, hnt] using h
    · have hres : (TaskQueueTestStub.add_task st d).1
          = { st with tasks := st.tasks ++ [d] } := by
        by_cases hd : d.name = ""
        · simp [TaskQueueTestStub.add_task, hd]
        · have hnt : d.name ∉ st.tombstones := fun hm => hc1 ⟨hd, hm⟩
          have hnn : d.name ∉ st.tasks.map (·.name) := fun hm => hc2 ⟨hd, hm⟩
          simp [TaskQueueTestStub.add_task, hd, hnt, hnn]
      rw [hres]
      obtain ⟨h1, h2⟩ := h
      constructor
      · intro n hn hne
        simp only [List.map_append, List.map_cons, List.map_nil,
          List.mem_append, List.mem_singleton] at hn
        rcases hn with hn | rfl
        · exact h1 n hn hne
        · intro hmem
          exact hc1 ⟨hne, hmem⟩
      · by_cases hd : d.name = ""
        · simpa [nonemptyNames, List.filter_append, hd] using h2
        · have hdn : d.name ∉ nonemptyNames st := by
            intro hmem
            unfold nonemptyNames at hmem
            exact hc2 ⟨hd, (List.mem_filter.mp hmem).1⟩
          simp only [nonemptyNames, List.filter_append] at hdn h2 ⊢
          simp only [List.map_append, List.map_cons, List.map_nil,
            List.filter_append]
          rw [List.nodup_append]
          refine ⟨h2, ?_, ?_⟩
          · simp [hd]
          · intro x hx hx'
            simp only [List.filter_cons, List.filter_nil] at hx'
            rcases hx' with hx'
            by_cases hdd : (d.name ≠ "")
            · simp [hdd] at hx'
              subst hx'
              exact hdn hx
            · exact absurd hd (by simpa using hdd)

/-- Deleting a task through the stub preserves queue well-formedness. -/
theorem delete_task_preserves_wf (st : QueueState) (nm : String)
    (h : QueueWF st) : QueueWF (TaskQueueTestStub.delete_task st nm) := by
  obtain ⟨h1, h2⟩ := h
  constructor
  · intro n hn hne
    simp only [TaskQueueTestStub.delete_task, List.mem_map] at hn
    obtain ⟨t, ht, rfl⟩ := hn
    have htm : t ∈ st.tasks := List.mem_of_mem_filter ht
    have htf : t.name ≠ nm := by
      simpa using List.of_mem_filter ht
    have hnt : t.name ∉ st.tombstones :=
      h1 t.name (List.mem_map_of_mem _ htm) hne
    simp [TaskQueueTestStub.delete_task, hnt, htf]
  · have hsub : List.Sublist
        (nonemptyNames (TaskQueueTestStub.delete_task st nm))
        (nonemptyNames st) := by
      unfold nonemptyNames TaskQueueTestStub.delete_task
      exact ((List.filter_sublist st.tasks).map (·.name)).filter _
    exact h2.sublist hsub

/-- Clearing a queue through the stub yields a well-formed queue. -/
theorem clear_queue_preserves_wf (st : QueueState) :
    QueueWF (TaskQueueTestStub.clear_queue st) := by
  constructor
  · intro n hn
    simp [TaskQueueTestStub.clear_queue] at hn
  · simp [nonemptyNames, TaskQueueTestStub.clear_queue]

/-- Claim C2: on every reachable queue state, adding a task whose
non-empty name is already carried by a queued task fails with
`TaskAlreadyExistsError` and leaves the queue unchanged; the empty queue
is well formed and every stub operation preserves well-formedness, so the
non-empty names of queued tasks stay pairwise distinct at all times. -/
theorem queue_add_duplicate_rejected :
    QueueWF {}
    ∧ (∀ st (task_obj : Task), QueueWF st →
        (Queue._task_to_dict task_obj).name ≠ "" →
        (Queue._task_to_dict task_obj).name ∈ st.tasks.map (·.name) →
        Queue.add st task_obj = (st, some TaskQueueError.taskAlreadyExists))
    ∧ (∀ st (task_obj : Task), QueueWF st → QueueWF (Queue.add st task_obj).1)
    ∧ (∀ st nm, QueueWF st → QueueWF (TaskQueueTestStub.delete_task st nm))
    ∧ (∀ st, QueueWF st → QueueWF (TaskQueueTestStub.clear_queue st)) := by
  refine ⟨⟨?_, ?_⟩, ?_, ?_, ?_, ?_⟩
  · intro n hn
    simp at hn
  · simp [nonemptyNames]
  · intro st task_obj hwf hne hmem
    have hnt : (Queue._task_to_dict task_obj).name ∉ st.tombstones :=
      hwf.1 _ hmem hne
    unfold Queue.add TaskQueueTestStub.add_task
    simp [hne, hmem, hnt]
  · intro st task_obj hwf
    exact add_task_preserves_wf st (Queue._task_to_dict task_obj) hwf
  · exact delete_task_preserves_wf
  · intro st _
    exact clear_queue_preserves_wf st

/-- Claim C2 evaluated concretely: re-adding a task named "t-1" to a queue
already holding a task of that name fails with `TaskAlreadyExistsError`
and returns the state unchanged. -/
theorem queue_add_duplicate_rejected_witness :
    Queue.add
        { tasks := [{ name := "t-1", url := none, method := "POST",
                      params := [], eta := none }],
          tombstones := [] }
        { name := some "t-1" }
      = ({ tasks := [{ name := "t-1", url := none, method := "POST",
                       params := [], eta := none }],
           tombstones := [] },
         some TaskQueueError.taskAlreadyExists) :=
  queue_add_duplicate_rejected.2.1
    { tasks := [{ name := "t-1", url := none, method := "POST",
                  params := [], eta := none }],
      tombstones := [] }
    { name := some "t-1" } (by decide) (by decide) (by decide)

/-- A queue state already holding an unnamed task, with the empty string
tombstoned, used to evaluate claim C10. -/
def unnamedQueueSt : QueueState :=
  { tasks := [{ name := "", url := none, method := "POST",
                params := [], eta := none }],
    tombstones := [""] }

/-- Claim C10: deduplication and tombstone checks apply only to tasks with
a non-empty name — a task whose name is `None` or empty is stored with the
empty name and is always appended, on every queue state, so arbitrarily
many unnamed tasks coexist and unnamed duplicates are never rejected. -/
theorem unnamed_task_always_added :
    ∀ st (task_obj : Task), task_obj.name = none ∨ task_obj.name = some "" →
      (Queue._task_to_dict task_obj).name = ""
      ∧ Queue.add st task_obj
          = ({ st with
                tasks := st.tasks ++ [Queue._task_to_dict task_obj] },
             none) := by
  intro st task_obj h
  have hname : (Queue._task_to_dict task_obj).name = "" := by
    rcases h with h | h <;> simp [Queue._task_to_dict, pyStrOr, h]
  refine ⟨hname, ?_⟩
  unfold Queue.add TaskQueueTestStub.add_task
  simp [hname]

/-- Claim C10 evaluated concretely: an unnamed task is appended even to a
queue that already holds an unnamed task and has the empty string
tombstoned. -/
theorem unnamed_task_always_added_witness :
    (Queue._task_to_dict { name := none }).name = ""
    ∧ Queue.add unnamedQueueSt { name := none }
        = ({ unnamedQueueSt with
              tasks := unnamedQueueSt.tasks
                ++ [Queue._task_to_dict { name := none }] },
           none) :=
  unnamed_task_always_added unnamedQueueSt { name := none } (Or.inl rfl)

/-- Claim C9: `Task.add` with `transactional=True` has exactly the effect
of `Task.add` with `transactional=False` on the queue — the same state,
the same optional error, the identical enqueued task — the unsupported
request differing only in the logged warning. -/
theorem transactional_add_same_effect :
    ∀ (task_obj : Task) st,
      (Task.add task_obj st true).1 = (Task.add task_obj st false).1
      ∧ (Task.add task_obj st true).1 = Queue.add st task_obj :=
  fun _ _ => ⟨rfl, rfl⟩

/-! ## Slot objects and futures (pipeline.py, modelled from the spec)

The `Slot` and `PipelineFuture` classes live in the repository's main
`pipeline.py` module, which is not among the provided sources (only
`test/pipeline_test.py` exercises them); they are modelled from the
specification and the behaviours pinned down by `SlotTest.testCreate`,
`PipelineFutureTest.testNormal` and `PipelineFutureTest.testStrictMode`. -/

/-- The pipeline error kinds relevant to slots and futures. -/
inductive PipelineError where
  | slotNotFilled
  | slotNotDeclared
  | unexpectedPipeline
deriving DecidableEq

/-- Modelled from the spec: a `pipeline.Slot` — "a single-assignment
output cell" with "identity (its record id) independent of its value" and
API `key`, `filled`, `value`, `filler`, `fill_time`. -/
structure Slot where
  name : String
  key : String
  _exists : Bool
  filled : Bool
  _value : Option PValue := none
  _filler : Option String := none
  _fill_datetime : Option Int := none
deriving DecidableEq

/-- Modelled from the spec: constructing a `pipeline.Slot`.  A slot
requires a name (else `UnexpectedPipelineError`); without a datastore key
a fresh random key (supplied here as `fresh_key`) is assigned and the slot
is not yet known to exist in the store; it starts unfilled. -/
def Slot.create (name : Option String) (slot_key : Option String)
    (fresh_key : String) : Except PipelineError Slot :=
  match name with
  | none => .error .unexpectedPipeline
  | some n =>
      .ok { name := n
            key := slot_key.getD fresh_key
            _exists := slot_key.isSome
            filled := false }

/-- Modelled from the spec: "Reads of unfilled-slot properties fail with
`SlotNotFilledError`" — the `value` property. -/
def Slot.value (s : Slot) : Except PipelineError PValue :=
  if s.filled then .ok (s._value.getD .null) else .error .slotNotFilled

/-- Modelled from the spec: the `filler` property of an unfilled slot
fails with `SlotNotFilledError`. -/
def Slot.filler (s : Slot) : Except PipelineError String :=
  if s.filled then .ok (s._filler.getD "") else .error .slotNotFilled

/-- Modelled from the spec: the `fill_datetime` property of an unfilled
slot fails with `SlotNotFilledError`. -/
def Slot.fill_datetime (s : Slot) : Except PipelineError Int :=
  if s.filled then .ok (s._fill_datetime.getD 0) else .error .slotNotFilled

/-- Claim C7: a slot created by name (with or without a slot key) and not
yet filled has `filled = False`, reading `value`, `filler` or
`fill_datetime` raises `SlotNotFilledError`, and reading `key` and `name`
succeeds with the expected values. -/
theorem unfilled_slot_reads (name : String) (slot_key : Option String)
    (fresh_key : String) (s : Slot)
    (h : Slot.create (some name) slot_key fresh_key = .ok s) :
    s.filled = false
    ∧ s.value = .error .slotNotFilled
    ∧ s.filler = .error .slotNotFilled
    ∧ s.fill_datetime = .error .slotNotFilled
    ∧ s.name = name
    ∧ s.key = slot_key.getD fresh_key := by
  simp only [Slot.create, Except.ok.injEq] at h
  subst h
  refine ⟨rfl, ?_, ?_, ?_, rfl, rfl⟩ <;> rfl

/-- Claim C7 evaluated concretely, once for a slot created by name only
and once for a slot created with an explicit slot key. -/
theorem unfilled_slot_reads_witness :
    (let s : Slot := { name := "stuff", key := "uuid-1", _exists := false,
                       filled := false }
     s.filled = false
     ∧ s.value = .error .slotNotFilled
     ∧ s.filler = .error .slotNotFilled
     ∧ s.fill_datetime = .error .slotNotFilled
     ∧ s.name = "stuff"
     ∧ s.key = (Option.getD none "uuid-1"))
    ∧ (let s : Slot := { name := "stuff", key := "mykey", _exists := true,
                         filled := false }
       s.filled = false
       ∧ s.value = .error .slotNotFilled
       ∧ s.filler = .error .slotNotFilled
       ∧ s.fill_datetime = .error .slotNotFilled
       ∧ s.name = "stuff"
       ∧ s.key = (Option.getD (some "mykey") "uuid-1")) :=
  ⟨unfilled_slot_reads "stuff" none "uuid-1" _ rfl,
   unfilled_slot_reads "stuff" (some "mykey") "uuid-1" _ rfl⟩

/-- Modelled from the spec: a `pipeline.PipelineFuture` — the handle
returned when constructing a stage, exposing its output slots by name.
"A future is strict if the stage class declares an `output_names` list —
then exactly {"default"} ∪ output_names slots are pre-allocated and
accessing any other name fails." -/
structure PipelineFuture where
  _output_dict : List (String × Slot)
  _strict : Bool
deriving DecidableEq

/-- Modelled from the spec: constructing a `pipeline.PipelineFuture`.  The
`default` slot is always pre-allocated; a non-empty `output_names` list
makes the future strict and pre-allocates exactly one further unfilled
slot per declared name; declaring the reserved name `default` is rejected
with `UnexpectedPipelineError`.  Fresh random slot keys are supplied as
`fresh_keys`, one per allocated slot, the first for `default`. -/
def PipelineFuture.mkUnfilledSlot (name key : String) : Slot :=
  { name := name, key := key, _exists := false, filled := false }

def PipelineFuture.create (output_names : List String)
    (fresh_keys : List String) : Except PipelineError PipelineFuture :=
  if "default" ∈ output_names then .error .unexpectedPipeline
  else
    .ok { _output_dict :=
            ("default", PipelineFuture.mkUnfilledSlot "default" (fresh_keys.headD ""))
              :: (output_names.zip (fresh_keys.drop 1)).map
                   (fun p => (p.1, PipelineFuture.mkUnfilledSlot p.1 p.2))
          _strict := decide (output_names ≠ []) }

/-- Modelled from the spec: attribute access on a future.  A declared name
returns its pre-allocated slot; on a strict future any other name raises
`SlotNotDeclaredError`; a loose future materializes the missing slot
lazily with a fresh key. -/
def PipelineFuture.getattr (f : PipelineFuture) (name : String)
    (fresh_key : String) : Except PipelineError (Slot × PipelineFuture) :=
  match f._output_dict.lookup name with
  | some s => .ok (s, f)
  | none =>
      if f._strict then .error .slotNotDeclared
      else
        let s : Slot := { name := name, key := fresh_key,
                          _exists := false, filled := false }
        .ok (s, { f with _output_dict := f._output_dict ++ [(name, s)] })

/-- Association lookup misses every key absent from the key column. -/
theorem lookup_eq_none_of_not_mem {β : Type} (nm : String)
    (l : List (String × β)) (h : nm ∉ l.map Prod.fst) :
    List.lookup nm l = none := by
  induction l with
  | nil => rfl
  | cons p tl ih =>
      simp only [List.map_cons, List.mem_cons] at h
      push_neg at h
      cases p with
      | mk k b =>
          have hk : (nm == k) = false := by
            simpa using h.1
          simp [List.lookup, hk, ih h.2]

/-- Claim C8: a future constructed with a non-empty declared
`output_names` list is strict, pre-allocates exactly the `default` slot
plus one unfilled slot per declared name with pairwise distinct keys, and
accessing any name outside {"default"} ∪ output_names raises
`SlotNotDeclaredError` instead of creating a slot. -/
theorem strict_future_slots (output_names fresh_keys : List String)
    (f : PipelineFuture)
    (hne : output_names ≠ [])
    (hkeys : fresh_keys.length = output_names.length + 1)
    (hnodup : fresh_keys.Nodup)
    (h : PipelineFuture.create output_names fresh_keys = .ok f) :
    f._strict = true
    ∧ f._output_dict.map Prod.fst = "default" :: output_names
    ∧ (f._output_dict.map fun p => p.2.key).Nodup
    ∧ (∀ p ∈ f._output_dict, p.2.filled = false)
    ∧ ∀ nm fresh_key, nm ∉ "default" :: output_names →
        f.getattr nm fresh_key = .error .slotNotDeclared := by
  by_cases hdef : "default" ∈ output_names
  · simp [PipelineFuture.create, hdef] at h
  · simp only [PipelineFuture.create, hdef, if_false, Except.ok.injEq] at h
    subst h
    obtain ⟨k0, krest, rfl⟩ : ∃ k0 krest, fresh_keys = k0 :: krest := by
      cases fresh_keys with
      | nil => simp at hkeys
      | cons a as => exact ⟨a, as, rfl⟩
    have hklen : output_names.length ≤ krest.length := by
      simp at hkeys
      omega
    have hfst : ((output_names.zip krest).map
        (fun p => (p.1, PipelineFuture.mkUnfilledSlot p.1 p.2))).map Prod.fst
        = output_names := by
      rw [List.map_map]
      have hcomp : (Prod.fst ∘ fun p : String × String =>
          (p.1, PipelineFuture.mkUnfilledSlot p.1 p.2)) = Prod.fst := rfl
      rw [hcomp]
      exact List.map_fst_zip _ _ hklen
    have hsnd : ((output_names.zip krest).map
        (fun p => (p.1, PipelineFuture.mkUnfilledSlot p.1 p.2))).map
          (fun p => p.2.key)
        = (output_names.zip krest).map Prod.snd := by
      rw [List.map_map]
      rfl
    refine ⟨by simp [hne], ?_, ?_, ?_, ?_⟩
    · simpa using congrArg (List.cons "default") hfst
    · show (("default",
          PipelineFuture.mkUnfilledSlot "default" ((k0 :: krest).headD ""))
            :: (output_names.zip krest).map
                 (fun p => (p.1, PipelineFuture.mkUnfilledSlot p.1 p.2))).map
          (fun p => p.2.key) |>.Nodup
      rw [List.map_cons, hsnd]
      have hk2 : krest.length ≤ output_names.length := by
        simp at hkeys
        omega
      rw [List.map_snd_zip _ _ hk2]
      simpa [PipelineFuture.mkUnfilledSlot] using hnodup
    · intro p hp
      rcases List.mem_cons.mp hp with rfl | hp'
      · rfl
      · obtain ⟨q, hq, rfl⟩ := List.mem_map.mp hp'
        rfl
    · intro nm fresh_key hnm
      have hlook : List.lookup nm (("default",
          PipelineFuture.mkUnfilledSlot "default" k0)
            :: (output_names.zip krest).map
                 (fun p => (p.1, PipelineFuture.mkUnfilledSlot p.1 p.2)))
          = none := by
        apply lookup_eq_none_of_not_mem
        rw [List.map_cons, hfst]
        exact hnm
      simp [PipelineFuture.getattr, hlook, hne]

/-- The future built by `PipelineFutureTest.testStrictMode`:
`PipelineFuture(['one', 'two'])`, with fresh slot keys k0, k1, k2. -/
def sampleFuture : PipelineFuture :=
  { _output_dict :=
      [("default", PipelineFuture.mkUnfilledSlot "default" "k0"),
       ("one", PipelineFuture.mkUnfilledSlot "one" "k1"),
       ("two", PipelineFuture.mkUnfilledSlot "two" "k2")]
    _strict := true }

/-- Claim C8 evaluated on the strict future of
`PipelineFutureTest.testStrictMode`. -/
theorem strict_future_slots_witness :
    sampleFuture._strict = true
    ∧ sampleFuture._output_dict.map Prod.fst = "default" :: ["one", "two"]
    ∧ (sampleFuture._output_dict.map fun p => p.2.key).Nodup
    ∧ (∀ p ∈ sampleFuture._output_dict, p.2.filled = false)
    ∧ ∀ nm fresh_key, nm ∉ "default" :: ["one", "two"] →
        sampleFuture.getattr nm fresh_key = .error .slotNotDeclared :=
  strict_future_slots ["one", "two"] ["k0", "k1", "k2"] sampleFuture
    (by decide) (by decide) (by decide) rfl

end PipelineModel
